import Mathlib

set_option maxHeartbeats 1000000

/-! Shallow embedding of the job-hunter-alert scraper core
    (supabase/functions/job-scraper/index.ts).

    Modelling conventions:
    - JavaScript strings are modelled as lists of characters; string length is
      the number of characters (the source counts UTF-16 units, which agrees on
      the ASCII inputs involved here).
    - The regex battery of scrapeJobPage (jobTitlePatterns over 5000-character
      chunks, and the urlPatterns context search) is abstracted: each raw regex
      hit is an input value RawMatch carrying the captured title text and the
      optional resolved URL found in its context window.  The post-regex
      pipeline (trim, whitespace collapse, validity filter, dedupe by
      lower-cased title, cap at 50) is translated literally.
    - The fetch of the career page is an input of type Except: an error value
      models a thrown network error or the explicit throw on a non-2xx
      response; an ok value carries the regex hits of the fetched HTML.
    - Database reads and writes (supabase queries) are explicit state passing
      over an in-memory DB value; inserts are modelled as always succeeding.
      The .single() call of the existing-job check returns a row exactly when
      the filtered result has exactly one element, as in supabase-js.
    - sendNotificationEmail wraps its (logging) body in try/catch and can never
      raise: it is modelled as a total function of a boolean oracle saying
      whether the body succeeded; a thrown body yields false. -/

namespace JobHunter

/-- Whitespace test approximating the JavaScript regex whitespace class
    (space, tab, newline, carriage return, vertical tab, form feed). -/
def jsWs (c : Char) : Bool :=
  c == ' ' || c == '\t' || c == '\n' || c == '\r' || c == '\x0b' || c == '\x0c'

/-- JavaScript String.trim on a character list. -/
def trimChars (s : List Char) : List Char :=
  ((s.dropWhile jsWs).reverse.dropWhile jsWs).reverse

/-- JavaScript replace of every maximal whitespace run by a single space,
    as in the source expression title.replace over the whitespace-run regex. -/
def collapseWs : List Char → List Char
  | [] => []
  | [c] => if jsWs c then [' '] else [c]
  | c :: d :: rest =>
    if jsWs c && jsWs d then collapseWs (d :: rest)
    else (if jsWs c then ' ' else c) :: collapseWs (d :: rest)

/-- The source's title normalisation: match[1].trim() followed by collapsing
    whitespace runs to single spaces. -/
def normalizeTitle (raw : List Char) : List Char :=
  collapseWs (trimChars raw)

/-- JavaScript toLowerCase, restricted to the ASCII mapping. -/
def toLowerCh (s : List Char) : List Char := s.map Char.toLower

/-- Test whether the first list is an initial segment of the second. -/
def startsWithCh : List Char → List Char → Bool
  | [], _ => true
  | _ :: _, [] => false
  | a :: as, b :: bs => a == b && startsWithCh as bs

/-- JavaScript String.includes: is needle a contiguous substring of hay. -/
def containsSub (needle : List Char) : List Char → Bool
  | [] => startsWithCh needle []
  | c :: rest => startsWithCh needle (c :: rest) || containsSub needle rest

/-- The candidate acceptance filter of scrapeJobPage, in source order:
    length strictly between 10 and 150, no angle brackets, lower-cased text
    free of the stoplist words, at least one ASCII letter. -/
def validTitle (title : List Char) : Bool :=
  decide (title.length > 10) && decide (title.length < 150) &&
  !(title.contains '<') && !(title.contains '>') &&
  !(containsSub (("cookie").data) (toLowerCh title)) &&
  !(containsSub (("privacy").data) (toLowerCh title)) &&
  title.any (fun c => c.isAlpha)

/-- The Job interface of the source (all fields are set by scrapeJobPage). -/
structure Job where
  title : List Char
  url : List Char
  description : List Char
  location : List Char
  posted_date : List Char
deriving DecidableEq

/-- One raw regex hit of the jobTitlePatterns battery: the captured title text
    and the (already resolved) URL found by the urlPatterns context search,
    if any.  The regex engine itself is abstracted as this input. -/
structure RawMatch where
  title : List Char
  urlFound : Option (List Char)
deriving DecidableEq

/-- The per-hit processing of scrapeJobPage: normalise the captured text,
    keep it when validTitle accepts, attach the context URL or fall back to
    the page URL, empty description and location, and the current timestamp. -/
def filteredJobs (url now : List Char) (raws : List RawMatch) : List Job :=
  raws.filterMap (fun m =>
    let title := normalizeTitle m.title
    if validTitle title then
      some { title := title,
             url := match m.urlFound with | some u => u | none => url,
             description := [], location := [], posted_date := now }
    else none)

/-- The source's duplicate removal and cap: keep an element exactly when its
    index equals the first index holding its lower-cased title, then slice to
    the first 50. -/
def dedupeJobs (jobs : List Job) : List Job :=
  ((jobs.enum.filter (fun p =>
      List.findIdx (fun j => toLowerCh j.title == toLowerCh p.2.title) jobs == p.1)).map
    Prod.snd).take 50

/-- The full extraction pipeline of scrapeJobPage on fetched HTML. -/
def scrapeJobs (url now : List Char) (raws : List RawMatch) : List Job :=
  dedupeJobs (filteredJobs url now raws)

/-- The ScrapedData interface of the source. -/
structure ScrapedData where
  jobs : List Job
  success : Bool
  error : Option (List Char)
deriving DecidableEq

/-- scrapeJobPage: a thrown fetch or a non-2xx response (the error branch)
    yields a structured failure; a successful fetch runs the extraction
    pipeline. -/
def scrapeJobPage (url now : List Char) (fetched : Except (List Char) (List RawMatch)) : ScrapedData :=
  match fetched with
  | .error e => { jobs := [], success := false, error := some e }
  | .ok raws => { jobs := scrapeJobs url now raws, success := true, error := none }

/-- checkKeywordMatch of the source: first keyword whose lower-cased form is a
    substring of the lower-cased title, in caller order, original casing. -/
def checkKeywordMatch (jobTitle : List Char) : List (List Char) → Option (List Char)
  | [] => none
  | keyword :: rest =>
    if containsSub (toLowerCh keyword) (toLowerCh jobTitle) then some keyword
    else checkKeywordMatch jobTitle rest

/-- sendNotificationEmail of the source: the try/catch returns true when the
    body runs to completion and false when it throws; the oracle argument says
    which happened.  Nothing ever escapes the function. -/
def sendNotificationEmail (bodyOk : Bool) : Bool :=
  if bodyOk then true else false

/-- A row of the jobs table as inserted by the handler (the insert names
    exactly these four columns). -/
structure JobRow where
  user_id : Nat
  company : List Char
  position : List Char
  status : List Char
deriving DecidableEq

/-- A row of the notifications table as inserted by the handler. -/
structure NotifRow where
  user_id : Nat
  job_id : Nat
  keyword_matched : List Char
  email_sent : Bool
deriving DecidableEq

/-- The persistent state the handler touches: jobs rows keyed by generated id,
    notification rows, and the next fresh id. -/
structure DB where
  jobs : List (Nat × JobRow)
  notifications : List NotifRow
  nextId : Nat
deriving DecidableEq

/-- The existing-job query: rows with the given user, company and position. -/
def matchingRows (db : DB) (u : Nat) (cn title : List Char) : List (Nat × JobRow) :=
  db.jobs.filter (fun p => p.2.user_id == u && p.2.company == cn && p.2.position == title)

/-- supabase .single(): a row exactly when the result set has one element. -/
def singleRow (rows : List (Nat × JobRow)) : Option (Nat × JobRow) :=
  match rows with
  | [r] => some r
  | _ => none

/-- Result of the per-job and per-company loops: final state and the two
    counters. -/
structure LoopOut where
  db : DB
  newJobs : Nat
  notifs : Nat
deriving DecidableEq

/-- The body of the per-job loop of the handler: skip when the existing-job
    check returns a row; otherwise insert the job with status applied, count
    it, and on a keyword match with a known email send the mail and record a
    notification carrying the send outcome. -/
def processJob (u : Nat) (cn : List Char) (keywordList : List (List Char))
    (userEmail : Option (List Char)) (emailOk : Nat → Bool) (db : DB) (job : Job) : LoopOut :=
  match singleRow (matchingRows db u cn job.title) with
  | some _ => ⟨db, 0, 0⟩
  | none =>
    let newId := db.nextId
    let db1 : DB :=
      { db with
        jobs := db.jobs ++ [(newId,
          { user_id := u, company := cn, position := job.title, status := ("applied").data })],
        nextId := db.nextId + 1 }
    match checkKeywordMatch job.title keywordList with
    | none => ⟨db1, 1, 0⟩
    | some kw =>
      match userEmail with
      | none => ⟨db1, 1, 0⟩
      | some _ =>
        let emailSent := sendNotificationEmail (emailOk newId)
        let db2 : DB :=
          { db1 with notifications := db1.notifications ++
              [{ user_id := u, job_id := newId, keyword_matched := kw, email_sent := emailSent }] }
        ⟨db2, 1, 1⟩

/-- The per-job loop of the handler over the scraped jobs of one company. -/
def processJobsLoop (u : Nat) (cn : List Char) (keywordList : List (List Char))
    (userEmail : Option (List Char)) (emailOk : Nat → Bool) (db : DB) : List Job → LoopOut
  | [] => ⟨db, 0, 0⟩
  | job :: rest =>
    let s := processJob u cn keywordList userEmail emailOk db job
    let r := processJobsLoop u cn keywordList userEmail emailOk s.db rest
    ⟨r.db, s.newJobs + r.newJobs, s.notifs + r.notifs⟩

/-- One tracked_companies row together with the joined profile email. -/
structure Company where
  company_name : List Char
  career_page_url : List Char
  user_id : Nat
  profileEmail : Option (List Char)
deriving DecidableEq

/-- One company of the run together with the outcomes of its two external
    calls: the keywords query (error or keyword list) and the career-page
    fetch (thrown error or the regex hits of the fetched HTML). -/
structure CompanyInput where
  comp : Company
  kwsRes : Except (List Char) (List (List Char))
  fetch : Except (List Char) (List RawMatch)

/-- One entry of processedCompanies as pushed by the handler: the failure
    shape has an error and no notification count, the success shape the
    reverse. -/
structure CompanyDetail where
  company : List Char
  success : Bool
  error : Option (List Char)
  jobs_found : Nat
  notifications_sent : Option Nat
deriving DecidableEq

/-- Result of processing one company: final state, the two per-company
    counters, and the detail entry pushed (none when the company was skipped
    over by a continue before any detail was recorded). -/
structure CompOut where
  db : DB
  newJobs : Nat
  notifs : Nat
  detail : Option CompanyDetail
deriving DecidableEq

/-- The per-company body of the handler loop: a keywords-query error or an
    empty keyword list skips the company with no detail entry; a failed
    scrape records a failure detail; otherwise the per-job loop runs and a
    success detail is recorded. -/
def processCompany (now : List Char) (emailOk : Nat → Bool) (db : DB) (ci : CompanyInput) : CompOut :=
  match ci.kwsRes with
  | .error _ => ⟨db, 0, 0, none⟩
  | .ok keywordList =>
    if keywordList.isEmpty then ⟨db, 0, 0, none⟩
    else
      let scrapedData := scrapeJobPage ci.comp.career_page_url now ci.fetch
      if scrapedData.success = false then
        ⟨db, 0, 0, some { company := ci.comp.company_name, success := false,
                          error := scrapedData.error, jobs_found := 0,
                          notifications_sent := none }⟩
      else
        let r := processJobsLoop ci.comp.user_id ci.comp.company_name keywordList
          ci.comp.profileEmail emailOk db scrapedData.jobs
        ⟨r.db, r.newJobs, r.notifs,
          some { company := ci.comp.company_name, success := true, error := none,
                 jobs_found := r.newJobs, notifications_sent := some r.notifs }⟩

/-- Result of the whole run: final state, aggregate counters, detail list. -/
structure RunOut where
  db : DB
  newJobs : Nat
  notifs : Nat
  details : List CompanyDetail
deriving DecidableEq

/-- The company loop of the handler, accumulating totals and details in
    order. -/
def runLoop (now : List Char) (emailOk : Nat → Bool) (db : DB) : List CompanyInput → RunOut
  | [] => ⟨db, 0, 0, []⟩
  | ci :: rest =>
    let s := processCompany now emailOk db ci
    let r := runLoop now emailOk s.db rest
    ⟨r.db, s.newJobs + r.newJobs, s.notifs + r.notifs,
      match s.detail with
      | some d => d :: r.details
      | none => r.details⟩

/-- The stats object of the success response. -/
structure Stats where
  companies_processed : Nat
  new_jobs_found : Nat
  notifications_sent : Nat
deriving DecidableEq

/-- The JSON body of a handler response: the 200 success shape or the 500
    error shape. -/
inductive RespBody where
  | ok (success : Bool) (message : List Char) (stats : Stats) (details : List CompanyDetail)
  | err (success : Bool) (error : List Char) (message : List Char)
deriving DecidableEq

/-- An HTTP response: status code and optional JSON body. -/
structure HttpResponse where
  status : Nat
  body : Option RespBody
deriving DecidableEq

/-- The HTTP handler: OPTIONS returns an empty 200 response; a failing
    companies query surfaces as a 500 error body; otherwise the company loop
    runs and a 200 success body reports stats over the full company list. -/
def handler (method now : List Char) (emailOk : Nat → Bool) (db : DB)
    (companiesRes : Except (List Char) (List CompanyInput)) : HttpResponse :=
  if method == ("OPTIONS").data then
    { status := 200, body := none }
  else
    match companiesRes with
    | .error e =>
      { status := 500, body := some (.err false e (("Scraping process failed").data)) }
    | .ok companies =>
      let r := runLoop now emailOk db companies
      { status := 200,
        body := some (.ok true (("Scraping completed successfully").data)
          { companies_processed := companies.length, new_jobs_found := r.newJobs,
            notifications_sent := r.notifs }
          r.details) }

/-- Number of stored jobs rows with the given identity, as a function of the
    jobs table. -/
def countRows (J : List (Nat × JobRow)) (u : Nat) (cn title : List Char) : Nat :=
  (J.filter (fun p => p.2.user_id == u && p.2.company == cn && p.2.position == title)).length

end JobHunter

namespace JobHunter

/-- Every element of an enumeration starting at n has first component at
    least n. -/
theorem enumFrom_fst_le {α : Type} {p : Nat × α} :
    ∀ (n : Nat) (l : List α), p ∈ List.enumFrom n l → n ≤ p.1 := by
  intro n l
  induction l generalizing n with
  | nil => intro h; simp [List.enumFrom] at h
  | cons a t ih =>
    intro h
    rcases List.mem_cons.mp h with h | h
    · simp [h]
    · exact Nat.le_of_succ_le (ih (n + 1) h)

/-- The first components of an enumeration are pairwise distinct. -/
theorem enumFrom_pairwise_ne {α : Type} :
    ∀ (n : Nat) (l : List α),
      List.Pairwise (fun p q : Nat × α => p.1 ≠ q.1) (List.enumFrom n l) := by
  intro n l
  induction l generalizing n with
  | nil => simp [List.enumFrom]
  | cons a t ih =>
    simp only [List.enumFrom, List.pairwise_cons]
    refine ⟨fun q hq => ?_, ih (n + 1)⟩
    have := enumFrom_fst_le (n + 1) t hq
    omega

/-- An element of an enumeration splits the underlying list at its index. -/
theorem enumFrom_split {α : Type} {p : Nat × α} :
    ∀ (n : Nat) (l : List α), p ∈ List.enumFrom n l →
      ∃ pre post, l = pre ++ p.2 :: post ∧ p.1 = n + pre.length := by
  intro n l
  induction l generalizing n with
  | nil => intro h; simp [List.enumFrom] at h
  | cons a t ih =>
    intro h
    rcases List.mem_cons.mp h with h | h
    · exact ⟨[], t, by simp [h], by simp [h]⟩
    · obtain ⟨pre, post, h1, h2⟩ := ih (n + 1) h
      exact ⟨a :: pre, post, by simp [h1], by simp [h2]; omega⟩

/-- The second component of an enumeration element belongs to the list. -/
theorem enumFrom_snd_mem {α : Type} {p : Nat × α} :
    ∀ (n : Nat) (l : List α), p ∈ List.enumFrom n l → p.2 ∈ l := by
  intro n l
  induction l generalizing n with
  | nil => intro h; simp [List.enumFrom] at h
  | cons a t ih =>
    intro h
    rcases List.mem_cons.mp h with h | h
    · simp [h]
    · exact List.mem_cons_of_mem a (ih (n + 1) h)

/-- When the first index satisfying pred in pre ++ x :: post is the length of
    pre, no element of pre satisfies pred. -/
theorem findIdx_append_cons_false {α : Type} (pred : α → Bool) :
    ∀ (pre : List α) (x : α) (post : List α),
      List.findIdx pred (pre ++ x :: post) = pre.length → ∀ y ∈ pre, pred y = false := by
  intro pre
  induction pre with
  | nil => intro x post _ y hy; simp at hy
  | cons a t ih =>
    intro x post h y hy
    rw [List.cons_append, List.findIdx_cons] at h
    by_cases ha : pred a = true
    · simp [ha] at h
    · simp only [Bool.not_eq_true] at ha
      simp only [ha, cond_false, List.length_cons] at h
      rcases List.mem_cons.mp hy with rfl | hy
      · exact ha
      · exact ih x post (by omega) y hy

/-- A kept element of the duplicate-removal filter sits at the first index
    holding its lower-cased title. -/
theorem mem_dedupe_kept {jobs : List Job} {p : Nat × Job}
    (h : p ∈ jobs.enum.filter (fun q =>
      List.findIdx (fun j => toLowerCh j.title == toLowerCh q.2.title) jobs == q.1)) :
    p ∈ jobs.enum ∧
      List.findIdx (fun j => toLowerCh j.title == toLowerCh p.2.title) jobs = p.1 := by
  have hm := List.mem_filter.mp h
  exact ⟨hm.1, by simpa using hm.2⟩

/-- The deduplicated list has pairwise distinct lower-cased titles. -/
theorem dedupeJobs_pairwise (jobs : List Job) :
    List.Pairwise (fun a b : Job => toLowerCh a.title ≠ toLowerCh b.title)
      (dedupeJobs jobs) := by
  unfold dedupeJobs
  apply List.Pairwise.sublist (List.take_sublist _ _)
  rw [List.pairwise_map]
  have henum : List.Pairwise (fun p q : Nat × Job => p.1 ≠ q.1) jobs.enum :=
    enumFrom_pairwise_ne 0 jobs
  have hfilter : List.Pairwise (fun p q : Nat × Job => p.1 ≠ q.1)
      (jobs.enum.filter (fun q =>
        List.findIdx (fun j => toLowerCh j.title == toLowerCh q.2.title) jobs == q.1)) :=
    List.Pairwise.sublist (List.filter_sublist _) henum
  refine hfilter.imp_of_mem ?_
  intro p q hp hq hne heq
  apply hne
  rw [← (mem_dedupe_kept hp).2, ← (mem_dedupe_kept hq).2]
  simp only [heq]

/-- The deduplicated list is capped at 50 elements. -/
theorem dedupeJobs_length_le (jobs : List Job) : (dedupeJobs jobs).length ≤ 50 := by
  unfold dedupeJobs
  exact List.length_take_le _ _

/-- Members of the deduplicated list come from the input list. -/
theorem mem_dedupeJobs {jobs : List Job} {x : Job} (h : x ∈ dedupeJobs jobs) :
    x ∈ jobs := by
  unfold dedupeJobs at h
  have h1 := (List.take_sublist _ _).mem h
  obtain ⟨p, hp, rfl⟩ := List.mem_map.mp h1
  exact enumFrom_snd_mem 0 jobs (List.mem_filter.mp hp).1

/-- A kept element is the first occurrence of its lower-cased title in the
    input list. -/
theorem dedupeJobs_keeps_first {jobs : List Job} {x : Job} (h : x ∈ dedupeJobs jobs) :
    ∃ pre post, jobs = pre ++ x :: post ∧
      ∀ y ∈ pre, toLowerCh y.title ≠ toLowerCh x.title := by
  unfold dedupeJobs at h
  have h1 := (List.take_sublist _ _).mem h
  obtain ⟨p, hp, rfl⟩ := List.mem_map.mp h1
  obtain ⟨hmem, hidx⟩ := mem_dedupe_kept hp
  obtain ⟨pre, post, hsplit, hlen⟩ := enumFrom_split 0 jobs hmem
  refine ⟨pre, post, hsplit, fun y hy => ?_⟩
  rw [hsplit] at hidx
  have hlen' : p.1 = pre.length := by omega
  rw [hlen'] at hidx
  have := findIdx_append_cons_false _ pre p.2 post hidx y hy
  simpa using this

/-- Members of the filtered candidate list carry a normalised raw title
    accepted by the validity filter. -/
theorem mem_filteredJobs {url now : List Char} {raws : List RawMatch} {x : Job}
    (h : x ∈ filteredJobs url now raws) :
    ∃ m ∈ raws, x.title = normalizeTitle m.title ∧
      validTitle (normalizeTitle m.title) = true := by
  unfold filteredJobs at h
  obtain ⟨m, hm, hx⟩ := List.mem_filterMap.mp h
  by_cases hv : validTitle (normalizeTitle m.title) = true
  · refine ⟨m, hm, ?_, hv⟩
    simp only [hv, if_true] at hx
    cases hx
    rfl
  · simp only [Bool.not_eq_true] at hv
    simp [hv] at hx

/-- Keyword matcher agrees with first-match search, and the two concrete
    examples of the specification (scratch check, folded into the claim
    theorem below). -/
theorem checkKeywordMatch_eq_find (t : List Char) (ks : List (List Char)) :
    checkKeywordMatch t ks =
      ks.find? (fun kw => containsSub (toLowerCh kw) (toLowerCh t)) := by
  induction ks with
  | nil => rfl
  | cons k rest ih =>
    simp only [checkKeywordMatch, List.find?]
    by_cases h : containsSub (toLowerCh k) (toLowerCh t) = true
    · simp [h]
    · simp only [Bool.not_eq_true] at h
      simp [h, ih]

/-- A successful keyword match is the first keyword that matches, in caller
    order and original casing. -/
theorem checkKeywordMatch_some_first {title kw : List Char} :
    ∀ {ks : List (List Char)}, checkKeywordMatch title ks = some kw →
      ∃ pre post, ks = pre ++ kw :: post ∧
        containsSub (toLowerCh kw) (toLowerCh title) = true ∧
        ∀ k ∈ pre, containsSub (toLowerCh k) (toLowerCh title) = false := by
  intro ks
  induction ks with
  | nil => intro h; simp [checkKeywordMatch] at h
  | cons a rest ih =>
    intro h
    rw [checkKeywordMatch] at h
    by_cases ha : containsSub (toLowerCh a) (toLowerCh title) = true
    · rw [if_pos ha] at h
      cases h
      exact ⟨[], rest, rfl, ha, by simp⟩
    · rw [if_neg ha] at h
      obtain ⟨pre, post, h1, h2, h3⟩ := ih h
      refine ⟨a :: pre, post, by simp [h1], h2, fun k hk => ?_⟩
      rcases List.mem_cons.mp hk with rfl | hk
      · exact Bool.not_eq_true _ |>.mp ha
      · exact h3 k hk

/-- A failed keyword match means no keyword matches. -/
theorem checkKeywordMatch_none {title : List Char} :
    ∀ {ks : List (List Char)}, checkKeywordMatch title ks = none →
      ∀ k ∈ ks, containsSub (toLowerCh k) (toLowerCh title) = false := by
  intro ks
  induction ks with
  | nil => intro _ k hk; simp at hk
  | cons a rest ih =>
    intro h k hk
    rw [checkKeywordMatch] at h
    by_cases ha : containsSub (toLowerCh a) (toLowerCh title) = true
    · rw [if_pos ha] at h; cases h
    · rw [if_neg ha] at h
      rcases List.mem_cons.mp hk with rfl | hk
      · exact Bool.not_eq_true _ |>.mp ha
      · exact ih h k hk

/-- C2: the Keyword Matcher returns the first keyword of the caller-supplied
    sequence (in its original casing) whose lower-cased form is a substring of
    the lower-cased title, and none when no keyword matches; in particular the
    two concrete examples of the specification hold. -/
theorem keyword_matcher_first_match :
    (∀ (title : List Char) (keywords : List (List Char)),
      checkKeywordMatch title keywords =
        keywords.find? (fun kw => containsSub (toLowerCh kw) (toLowerCh title))) ∧
    (∀ (title kw : List Char) (keywords : List (List Char)),
      checkKeywordMatch title keywords = some kw →
      ∃ pre post, keywords = pre ++ kw :: post ∧
        containsSub (toLowerCh kw) (toLowerCh title) = true ∧
        ∀ k ∈ pre, containsSub (toLowerCh k) (toLowerCh title) = false) ∧
    (∀ (title : List Char) (keywords : List (List Char)),
      checkKeywordMatch title keywords = none →
      ∀ k ∈ keywords, containsSub (toLowerCh k) (toLowerCh title) = false) ∧
    checkKeywordMatch (("Senior Backend Engineer").data)
      [("backend").data, ("frontend").data] = some (("backend").data) ∧
    checkKeywordMatch (("Nurse").data) [("backend").data] = none :=
  ⟨checkKeywordMatch_eq_find,
   fun _ _ _ h => checkKeywordMatch_some_first h,
   fun _ _ h => checkKeywordMatch_none h,
   by decide, by decide⟩

/-- Witness for C2: the first-match characterisation instantiated on the
    specification's own example. -/
theorem keyword_matcher_first_match_witness :
    ∃ pre post,
      [("backend").data, ("frontend").data] = pre ++ (("backend").data) :: post ∧
      containsSub (toLowerCh (("backend").data))
        (toLowerCh (("Senior Backend Engineer").data)) = true ∧
      ∀ k ∈ pre,
        containsSub (toLowerCh k) (toLowerCh (("Senior Backend Engineer").data)) = false :=
  keyword_matcher_first_match.2.1 (("Senior Backend Engineer").data) (("backend").data)
    [("backend").data, ("frontend").data] (by decide)

/-- C3: every candidate title produced by the Text Extractor is the trimmed,
    whitespace-collapsed form of some raw regex capture, has length within
    the inclusive bounds 10 to 150, contains no angle brackets, contains at
    least one letter, and its lower-cased form contains neither stoplist
    word. -/
theorem extractor_titles_valid (url now : List Char) (raws : List RawMatch) :
    ∀ job ∈ scrapeJobs url now raws,
      (∃ m ∈ raws, job.title = normalizeTitle m.title) ∧
      10 ≤ job.title.length ∧ job.title.length ≤ 150 ∧
      job.title.contains '<' = false ∧ job.title.contains '>' = false ∧
      (∃ c ∈ job.title, c.isAlpha) ∧
      containsSub (("cookie").data) (toLowerCh job.title) = false ∧
      containsSub (("privacy").data) (toLowerCh job.title) = false := by
  intro job hj
  have hmem : job ∈ filteredJobs url now raws := mem_dedupeJobs hj
  obtain ⟨m, hm, ht, hv⟩ := mem_filteredJobs hmem
  rw [← ht] at hv
  unfold validTitle at hv
  simp only [Bool.and_eq_true, decide_eq_true_eq, Bool.not_eq_true'] at hv
  obtain ⟨⟨⟨⟨⟨⟨h10, h150⟩, hlt⟩, hgt⟩, hck⟩, hpv⟩, hal⟩ := hv
  exact ⟨⟨m, hm, ht⟩, by omega, by omega, hlt, hgt, List.any_eq_true.mp hal, hck, hpv⟩

/-- Witness for C3: a concrete raw capture with surrounding and doubled
    whitespace yields the normalised title and satisfies every filter
    clause. -/
theorem extractor_titles_valid_witness :
    (({ title := ("Backend Engineer").data, url := ("u").data, description := [],
        location := [], posted_date := ("t").data } : Job) ∈
      scrapeJobs (("u").data) (("t").data)
        [{ title := ("  Backend   Engineer ").data, urlFound := none }]) ∧
    ((∃ m ∈ [({ title := ("  Backend   Engineer ").data, urlFound := none } : RawMatch)],
        ("Backend Engineer").data = normalizeTitle m.title) ∧
      10 ≤ (("Backend Engineer").data).length ∧ (("Backend Engineer").data).length ≤ 150 ∧
      (("Backend Engineer").data).contains '<' = false ∧
      (("Backend Engineer").data).contains '>' = false ∧
      (∃ c ∈ ("Backend Engineer").data, c.isAlpha) ∧
      containsSub (("cookie").data) (toLowerCh (("Backend Engineer").data)) = false ∧
      containsSub (("privacy").data) (toLowerCh (("Backend Engineer").data)) = false) := by
  refine ⟨by decide, ?_⟩
  have h := extractor_titles_valid (("u").data) (("t").data)
    [{ title := ("  Backend   Engineer ").data, urlFound := none }]
    { title := ("Backend Engineer").data, url := ("u").data, description := [],
      location := [], posted_date := ("t").data } (by decide)
  exact h

/-- C4: the Text Extractor's output never holds two candidates with
    case-insensitively equal titles, each kept candidate is the first
    occurrence of its lower-cased title in extraction order, and the output is
    capped at 50 candidates. -/
theorem extractor_dedup_and_cap (url now : List Char) (raws : List RawMatch) :
    (scrapeJobs url now raws).length ≤ 50 ∧
    List.Pairwise (fun a b : Job => toLowerCh a.title ≠ toLowerCh b.title)
      (scrapeJobs url now raws) ∧
    ∀ x ∈ scrapeJobs url now raws,
      ∃ pre post, filteredJobs url now raws = pre ++ x :: post ∧
        ∀ y ∈ pre, toLowerCh y.title ≠ toLowerCh x.title :=
  ⟨dedupeJobs_length_le _, dedupeJobs_pairwise _,
   fun _ hx => dedupeJobs_keeps_first hx⟩

/-- Counting matching rows distributes over appending one row with the same
    user and company. -/
theorem countRows_append_single (J : List (Nat × JobRow)) (u i : Nat) (cn s t st : List Char) :
    countRows (J ++ [(i, ⟨u, cn, s, st⟩)]) u cn t =
      countRows J u cn t + (if s = t then 1 else 0) := by
  unfold countRows
  rw [List.filter_append, List.length_append]
  congr 1
  by_cases h : s = t
  · subst h
    simp [List.filter]
  · have hf : (s == t) = false := beq_eq_false_iff_ne.mpr h
    simp [List.filter, hf, h]

/-- With no matching row stored, the existing-job check comes back empty. -/
theorem singleRow_none_of_count_zero {db : DB} {u : Nat} {cn t : List Char}
    (h : countRows db.jobs u cn t = 0) :
    singleRow (matchingRows db u cn t) = none := by
  have h2 : matchingRows db u cn t = [] := List.length_eq_zero.mp h
  rw [h2]
  rfl

/-- With exactly one matching row stored, the existing-job check returns a
    row. -/
theorem singleRow_some_of_count_one {db : DB} {u : Nat} {cn t : List Char}
    (h : countRows db.jobs u cn t = 1) :
    ∃ r, singleRow (matchingRows db u cn t) = some r := by
  obtain ⟨a, ha⟩ := List.length_eq_one.mp h
  refine ⟨a, ?_⟩
  have ha2 : matchingRows db u cn t = [a] := ha
  rw [ha2]
  rfl

/-- A job whose existing-job check returns a row is skipped unchanged. -/
theorem processJob_skip {u : Nat} {cn : List Char} {kws : List (List Char)}
    {em : Option (List Char)} {ok : Nat → Bool} {db : DB} {job : Job} {r : Nat × JobRow}
    (h : singleRow (matchingRows db u cn job.title) = some r) :
    processJob u cn kws em ok db job = ⟨db, 0, 0⟩ := by
  unfold processJob
  rw [h]

/-- A new job with a keyword match and a known email inserts the job row and
    one notification row carrying the send outcome. -/
theorem processJob_notif_match {u : Nat} {cn addr : List Char} {kws : List (List Char)}
    {ok : Nat → Bool} {db : DB} {job : Job} {kw : List Char}
    (h : singleRow (matchingRows db u cn job.title) = none)
    (hm : checkKeywordMatch job.title kws = some kw) :
    processJob u cn kws (some addr) ok db job =
      ⟨⟨db.jobs ++ [(db.nextId, ⟨u, cn, job.title, ("applied").data⟩)],
        db.notifications ++ [⟨u, db.nextId, kw, sendNotificationEmail (ok db.nextId)⟩],
        db.nextId + 1⟩, 1, 1⟩ := by
  unfold processJob
  rw [h, hm]

/-- A new job without a keyword match inserts only the job row. -/
theorem processJob_no_match_shape {u : Nat} {cn : List Char} {kws : List (List Char)}
    {em : Option (List Char)} {ok : Nat → Bool} {db : DB} {job : Job}
    (h : singleRow (matchingRows db u cn job.title) = none)
    (hm : checkKeywordMatch job.title kws = none) :
    processJob u cn kws em ok db job =
      ⟨⟨db.jobs ++ [(db.nextId, ⟨u, cn, job.title, ("applied").data⟩)],
        db.notifications, db.nextId + 1⟩, 1, 0⟩ := by
  unfold processJob
  rw [h, hm]

/-- A new job with a keyword match but no email on file inserts only the job
    row: no notification is recorded. -/
theorem processJob_no_email_shape {u : Nat} {cn : List Char} {kws : List (List Char)}
    {ok : Nat → Bool} {db : DB} {job : Job} {kw : List Char}
    (h : singleRow (matchingRows db u cn job.title) = none)
    (hm : checkKeywordMatch job.title kws = some kw) :
    processJob u cn kws none ok db job =
      ⟨⟨db.jobs ++ [(db.nextId, ⟨u, cn, job.title, ("applied").data⟩)],
        db.notifications, db.nextId + 1⟩, 1, 0⟩ := by
  unfold processJob
  rw [h, hm]

/-- Whatever the match and email outcome, a new job appends exactly one jobs
    row with status applied and counts one new job. -/
theorem processJob_insert_shape {u : Nat} {cn : List Char} {kws : List (List Char)}
    {em : Option (List Char)} {ok : Nat → Bool} {db : DB} {job : Job}
    (h : singleRow (matchingRows db u cn job.title) = none) :
    (processJob u cn kws em ok db job).db.jobs =
      db.jobs ++ [(db.nextId, ⟨u, cn, job.title, ("applied").data⟩)] ∧
    (processJob u cn kws em ok db job).newJobs = 1 := by
  rcases hm : checkKeywordMatch job.title kws with _ | kw
  · rw [processJob_no_match_shape h hm]
    exact ⟨rfl, rfl⟩
  · rcases em with _ | addr
    · rw [processJob_no_email_shape h hm]
      exact ⟨rfl, rfl⟩
    · rw [processJob_notif_match h hm]
      exact ⟨rfl, rfl⟩

/-- Each per-job step only ever appends to the notifications table. -/
theorem processJob_notifications_append (u : Nat) (cn : List Char) (kws : List (List Char))
    (em : Option (List Char)) (ok : Nat → Bool) (db : DB) (job : Job) :
    ∃ tail, (processJob u cn kws em ok db job).db.notifications =
      db.notifications ++ tail := by
  rcases hs : singleRow (matchingRows db u cn job.title) with _ | r
  · rcases hm : checkKeywordMatch job.title kws with _ | kw
    · rw [processJob_no_match_shape hs hm]
      exact ⟨[], by simp⟩
    · rcases em with _ | addr
      · rw [processJob_no_email_shape hs hm]
        exact ⟨[], by simp⟩
      · rw [processJob_notif_match hs hm]
        exact ⟨_, rfl⟩
  · rw [processJob_skip hs]
    exact ⟨[], by simp⟩

/-- Unfolding equation for the per-job loop: the final state after a step. -/
theorem processJobsLoop_cons_db (u : Nat) (cn : List Char) (kws : List (List Char))
    (em : Option (List Char)) (ok : Nat → Bool) (db : DB) (job : Job) (rest : List Job) :
    (processJobsLoop u cn kws em ok db (job :: rest)).db =
      (processJobsLoop u cn kws em ok (processJob u cn kws em ok db job).db rest).db := rfl

/-- Unfolding equation for the per-job loop: the whole step. -/
theorem processJobsLoop_cons (u : Nat) (cn : List Char) (kws : List (List Char))
    (em : Option (List Char)) (ok : Nat → Bool) (db : DB) (job : Job) (rest : List Job) :
    processJobsLoop u cn kws em ok db (job :: rest) =
      ⟨(processJobsLoop u cn kws em ok (processJob u cn kws em ok db job).db rest).db,
       (processJob u cn kws em ok db job).newJobs +
         (processJobsLoop u cn kws em ok (processJob u cn kws em ok db job).db rest).newJobs,
       (processJob u cn kws em ok db job).notifs +
         (processJobsLoop u cn kws em ok (processJob u cn kws em ok db job).db rest).notifs⟩ := rfl

/-- When every job of the list already has exactly one stored row, the loop
    changes nothing and counts nothing. -/
theorem processJobsLoop_all_existing {u : Nat} {cn : List Char} {kws : List (List Char)}
    {em : Option (List Char)} {ok : Nat → Bool} :
    ∀ (jobs : List Job) (db : DB),
      (∀ j ∈ jobs, countRows db.jobs u cn j.title = 1) →
      processJobsLoop u cn kws em ok db jobs = ⟨db, 0, 0⟩ := by
  intro jobs
  induction jobs with
  | nil => intro db _; rfl
  | cons j rest ih =>
    intro db h
    obtain ⟨r, hr⟩ := singleRow_some_of_count_one (h j (List.mem_cons_self _ _))
    have h2 := ih db (fun x hx => h x (List.mem_cons_of_mem _ hx))
    rw [processJobsLoop_cons, processJob_skip hr]
    simp [h2]

/-- The loop leaves the stored count of any title that none of its jobs
    carries unchanged. -/
theorem processJobsLoop_count_other {u : Nat} {cn t : List Char} {kws : List (List Char)}
    {em : Option (List Char)} {ok : Nat → Bool} :
    ∀ (jobs : List Job) (db : DB),
      (∀ j ∈ jobs, j.title ≠ t) →
      countRows (processJobsLoop u cn kws em ok db jobs).db.jobs u cn t =
        countRows db.jobs u cn t := by
  intro jobs
  induction jobs with
  | nil => intro db _; rfl
  | cons j rest ih =>
    intro db h
    rw [processJobsLoop_cons_db, ih _ (fun x hx => h x (List.mem_cons_of_mem _ hx))]
    rcases hs : singleRow (matchingRows db u cn j.title) with _ | r
    · rw [(processJob_insert_shape hs).1, countRows_append_single]
      simp [h j (List.mem_cons_self _ _)]
    · rw [processJob_skip hs]

/-- Starting from a state with none of the (pairwise distinct) titles stored,
    the loop leaves each title stored exactly once. -/
theorem processJobsLoop_counts_one {u : Nat} {cn : List Char} {kws : List (List Char)}
    {em : Option (List Char)} {ok : Nat → Bool} :
    ∀ (jobs : List Job) (db : DB),
      List.Pairwise (fun a b : Job => a.title ≠ b.title) jobs →
      (∀ j ∈ jobs, countRows db.jobs u cn j.title = 0) →
      ∀ j ∈ jobs,
        countRows (processJobsLoop u cn kws em ok db jobs).db.jobs u cn j.title = 1 := by
  intro jobs
  induction jobs with
  | nil => intro db _ _ j hj; simp at hj
  | cons j0 rest ih =>
    intro db hpw h0 j hj
    obtain ⟨hpw1, hpw2⟩ := List.pairwise_cons.mp hpw
    have hs : singleRow (matchingRows db u cn j0.title) = none :=
      singleRow_none_of_count_zero (h0 j0 (List.mem_cons_self _ _))
    have hc : ∀ s : List Char,
        countRows (processJob u cn kws em ok db j0).db.jobs u cn s =
          countRows db.jobs u cn s + (if j0.title = s then 1 else 0) := by
      intro s
      rw [(processJob_insert_shape hs).1, countRows_append_single]
    rw [processJobsLoop_cons_db]
    rcases List.mem_cons.mp hj with rfl | hj
    · rw [processJobsLoop_count_other rest _ (fun x hx => Ne.symm (hpw1 x hx)), hc]
      simp [h0 j (List.mem_cons_self _ _)]
    · exact ih _ hpw2 (fun x hx => by
        rw [hc]
        simp [hpw1 x hx, h0 x (List.mem_cons_of_mem _ hx)]) j hj

/-- The loop only ever appends to the notifications table: existing rows are
    never updated or deleted. -/
theorem processJobsLoop_notifications_append (u : Nat) (cn : List Char)
    (kws : List (List Char)) (em : Option (List Char)) (ok : Nat → Bool) :
    ∀ (jobs : List Job) (db : DB),
      ∃ tail, (processJobsLoop u cn kws em ok db jobs).db.notifications =
        db.notifications ++ tail := by
  intro jobs
  induction jobs with
  | nil => intro db; exact ⟨[], by simp [processJobsLoop]⟩
  | cons j rest ih =>
    intro db
    obtain ⟨t1, h1⟩ := processJob_notifications_append u cn kws em ok db j
    obtain ⟨t2, h2⟩ := ih (processJob u cn kws em ok db j).db
    rw [processJobsLoop_cons_db]
    exact ⟨t1 ++ t2, by rw [h2, h1, List.append_assoc]⟩

/-- A company whose keywords query failed is skipped unchanged with no
    detail entry. -/
theorem processCompany_kws_error (now : List Char) (ok : Nat → Bool) (db : DB)
    (c : Company) (e : List Char) (f : Except (List Char) (List RawMatch)) :
    processCompany now ok db ⟨c, .error e, f⟩ = ⟨db, 0, 0, none⟩ := rfl

/-- A company whose owner has no keywords is skipped unchanged with no
    detail entry, independently of the fetch. -/
theorem processCompany_empty_kws (now : List Char) (ok : Nat → Bool) (db : DB)
    (c : Company) (f : Except (List Char) (List RawMatch)) :
    processCompany now ok db ⟨c, .ok [], f⟩ = ⟨db, 0, 0, none⟩ := rfl

/-- A company whose fetch threw records a failure detail and changes
    nothing else. -/
theorem processCompany_fetch_error (now : List Char) (ok : Nat → Bool) (db : DB)
    (cn url : List Char) (u : Nat) (em : Option (List Char))
    (kws : List (List Char)) (e : List Char) (hkw : kws ≠ []) :
    processCompany now ok db ⟨⟨cn, url, u, em⟩, .ok kws, .error e⟩ =
      ⟨db, 0, 0, some ⟨cn, false, some e, 0, none⟩⟩ := by
  cases kws with
  | nil => exact absurd rfl hkw
  | cons a t => rfl

/-- A company with keywords and a successful fetch runs the per-job loop over
    the extraction pipeline's output and records a success detail. -/
theorem processCompany_ok_shape (now : List Char) (ok : Nat → Bool) (db : DB)
    (cn url : List Char) (u : Nat) (em : Option (List Char))
    (kws : List (List Char)) (raws : List RawMatch) (hkw : kws ≠ []) :
    processCompany now ok db ⟨⟨cn, url, u, em⟩, .ok kws, .ok raws⟩ =
      ⟨(processJobsLoop u cn kws em ok db (scrapeJobs url now raws)).db,
       (processJobsLoop u cn kws em ok db (scrapeJobs url now raws)).newJobs,
       (processJobsLoop u cn kws em ok db (scrapeJobs url now raws)).notifs,
       some ⟨cn, true, none,
             (processJobsLoop u cn kws em ok db (scrapeJobs url now raws)).newJobs,
             some (processJobsLoop u cn kws em ok db (scrapeJobs url now raws)).notifs⟩⟩ := by
  cases kws with
  | nil => exact absurd rfl hkw
  | cons a t => rfl

/-- Unfolding equation for the company loop. -/
theorem runLoop_cons (now : List Char) (ok : Nat → Bool) (db : DB)
    (ci : CompanyInput) (rest : List CompanyInput) :
    runLoop now ok db (ci :: rest) =
      ⟨(runLoop now ok (processCompany now ok db ci).db rest).db,
       (processCompany now ok db ci).newJobs +
         (runLoop now ok (processCompany now ok db ci).db rest).newJobs,
       (processCompany now ok db ci).notifs +
         (runLoop now ok (processCompany now ok db ci).db rest).notifs,
       match (processCompany now ok db ci).detail with
       | some d => d :: (runLoop now ok (processCompany now ok db ci).db rest).details
       | none => (runLoop now ok (processCompany now ok db ci).db rest).details⟩ := rfl

/-- Witness for C4: the first-occurrence clause instantiated on a concrete
    extraction containing a case-variant duplicate. -/
theorem extractor_dedup_and_cap_witness :
    ∃ pre post,
      filteredJobs (("u").data) (("t").data)
        [{ title := ("Backend Engineer").data, urlFound := none },
         { title := ("BACKEND ENGINEER").data, urlFound := none }] =
        pre ++ ({ title := ("Backend Engineer").data, url := ("u").data, description := [],
                  location := [], posted_date := ("t").data } : Job) :: post ∧
      ∀ y ∈ pre, toLowerCh y.title ≠ toLowerCh (("Backend Engineer").data) :=
  (extractor_dedup_and_cap (("u").data) (("t").data)
      [{ title := ("Backend Engineer").data, urlFound := none },
       { title := ("BACKEND ENGINEER").data, urlFound := none }]).2.2
    { title := ("Backend Engineer").data, url := ("u").data, description := [],
      location := [], posted_date := ("t").data } (by decide)

/-- C1: a thrown fetch or non-2xx response yields a structured failure with
    an empty job list instead of an exception; the company loop records a
    per-company failure entry, leaves the state untouched, and still
    processes every subsequent company exactly as it would have; and the
    response stats count the full company list as processed whatever the
    per-company outcomes were. -/
theorem fetch_failure_isolated (url now e method cn : List Char) (u : Nat)
    (em : Option (List Char)) (kws : List (List Char)) (ok : Nat → Bool) (db : DB)
    (rest companies : List CompanyInput)
    (hkw : kws ≠ []) (hme : method ≠ ("OPTIONS").data) :
    scrapeJobPage url now (.error e) = ⟨[], false, some e⟩ ∧
    runLoop now ok db (⟨⟨cn, url, u, em⟩, .ok kws, .error e⟩ :: rest) =
      ⟨(runLoop now ok db rest).db, (runLoop now ok db rest).newJobs,
       (runLoop now ok db rest).notifs,
       ⟨cn, false, some e, 0, none⟩ :: (runLoop now ok db rest).details⟩ ∧
    handler method now ok db (.ok companies) =
      ⟨200, some (.ok true (("Scraping completed successfully").data)
        ⟨companies.length, (runLoop now ok db companies).newJobs,
         (runLoop now ok db companies).notifs⟩
        (runLoop now ok db companies).details)⟩ := by
  refine ⟨rfl, ?_, ?_⟩
  · rw [runLoop_cons, processCompany_fetch_error now ok db cn url u em kws e hkw]
    simp
  · unfold handler
    rw [if_neg (fun hb => hme (by simpa using hb))]

/-- Witness for C1: a concrete failing fetch among concrete companies. -/
theorem fetch_failure_isolated_witness :
    scrapeJobPage (("u").data) (("t").data) (.error (("boom").data)) =
      ⟨[], false, some (("boom").data)⟩ ∧
    runLoop (("t").data) (fun _ => true) ⟨[], [], 0⟩
        (⟨⟨("Acme").data, ("u").data, 0, none⟩, .ok [("k").data],
          .error (("boom").data)⟩ :: []) =
      ⟨(runLoop (("t").data) (fun _ => true) ⟨[], [], 0⟩ []).db,
       (runLoop (("t").data) (fun _ => true) ⟨[], [], 0⟩ []).newJobs,
       (runLoop (("t").data) (fun _ => true) ⟨[], [], 0⟩ []).notifs,
       ⟨("Acme").data, false, some (("boom").data), 0, none⟩ ::
         (runLoop (("t").data) (fun _ => true) ⟨[], [], 0⟩ []).details⟩ ∧
    handler (("POST").data) (("t").data) (fun _ => true) ⟨[], [], 0⟩ (.ok []) =
      ⟨200, some (.ok true (("Scraping completed successfully").data)
        ⟨(([] : List CompanyInput)).length,
         (runLoop (("t").data) (fun _ => true) ⟨[], [], 0⟩ []).newJobs,
         (runLoop (("t").data) (fun _ => true) ⟨[], [], 0⟩ []).notifs⟩
        (runLoop (("t").data) (fun _ => true) ⟨[], [], 0⟩ []).details)⟩ :=
  fetch_failure_isolated (("u").data) (("t").data) (("boom").data) (("POST").data)
    (("Acme").data) 0 none [("k").data] (fun _ => true) ⟨[], [], 0⟩ [] []
    (by decide) (by decide)

/-- C5: re-running the company against an unchanged page, when the first run
    started from a state storing none of the extracted titles, reports zero
    new jobs and leaves the state exactly as the first run left it; and any
    candidate whose existing-job check returns a stored row is skipped with
    no second insert. -/
theorem rescrape_idempotent (now url cn : List Char) (u : Nat) (em : Option (List Char))
    (kws : List (List Char)) (ok : Nat → Bool) (raws : List RawMatch) (db0 : DB)
    (hkw : kws ≠ [])
    (h0 : ∀ j ∈ scrapeJobs url now raws, countRows db0.jobs u cn j.title = 0) :
    (processCompany now ok
        (processCompany now ok db0 ⟨⟨cn, url, u, em⟩, .ok kws, .ok raws⟩).db
        ⟨⟨cn, url, u, em⟩, .ok kws, .ok raws⟩).newJobs = 0 ∧
    (processCompany now ok
        (processCompany now ok db0 ⟨⟨cn, url, u, em⟩, .ok kws, .ok raws⟩).db
        ⟨⟨cn, url, u, em⟩, .ok kws, .ok raws⟩).db =
      (processCompany now ok db0 ⟨⟨cn, url, u, em⟩, .ok kws, .ok raws⟩).db ∧
    (∀ (db : DB) (job : Job) (r : Nat × JobRow),
      singleRow (matchingRows db u cn job.title) = some r →
      processJob u cn kws em ok db job = ⟨db, 0, 0⟩) := by
  have hpair : List.Pairwise (fun a b : Job => a.title ≠ b.title)
      (scrapeJobs url now raws) := by
    have hp := dedupeJobs_pairwise (filteredJobs url now raws)
    exact hp.imp (fun hne heq => hne (by rw [heq]))
  have hcounts : ∀ j ∈ scrapeJobs url now raws,
      countRows (processJobsLoop u cn kws em ok db0 (scrapeJobs url now raws)).db.jobs
        u cn j.title = 1 :=
    processJobsLoop_counts_one (scrapeJobs url now raws) db0 hpair h0
  have hloop2 : processJobsLoop u cn kws em ok
      (processJobsLoop u cn kws em ok db0 (scrapeJobs url now raws)).db
      (scrapeJobs url now raws) =
      ⟨(processJobsLoop u cn kws em ok db0 (scrapeJobs url now raws)).db, 0, 0⟩ :=
    processJobsLoop_all_existing (scrapeJobs url now raws) _ hcounts
  rw [processCompany_ok_shape now ok db0 cn url u em kws raws hkw,
    processCompany_ok_shape now ok _ cn url u em kws raws hkw]
  refine ⟨?_, ?_, fun db job r hr => processJob_skip hr⟩
  · simp [hloop2]
  · simp [hloop2]

/-- Witness for C5: a concrete company re-scraped from an initially empty
    store. -/
theorem rescrape_idempotent_witness :
    (processCompany (("t").data) (fun _ => true)
        (processCompany (("t").data) (fun _ => true) ⟨[], [], 0⟩
          ⟨⟨("Acme").data, ("u").data, 0, none⟩, .ok [("x").data],
           .ok [⟨("  Backend   Engineer ").data, none⟩]⟩).db
        ⟨⟨("Acme").data, ("u").data, 0, none⟩, .ok [("x").data],
         .ok [⟨("  Backend   Engineer ").data, none⟩]⟩).newJobs = 0 :=
  (rescrape_idempotent (("t").data) (("u").data) (("Acme").data) 0 none
    [("x").data] (fun _ => true) [⟨("  Backend   Engineer ").data, none⟩]
    ⟨[], [], 0⟩ (by decide) (by decide)).1

/-- Counterexample to C6 as stated: with a failing send the notification row
    is recorded with email_sent false, yet the loop counter still counts it,
    so notifications_sent is not the number of successfully sent emails. -/
theorem notifications_count_counterexample :
    (processJobsLoop 0 (("Acme").data) [("backend").data] (some (("e").data))
        (fun _ => false) ⟨[], [], 0⟩
        [⟨("Senior Backend Engineer").data, ("u").data, [], [], ("t").data⟩]).notifs = 1 ∧
    (processJobsLoop 0 (("Acme").data) [("backend").data] (some (("e").data))
        (fun _ => false) ⟨[], [], 0⟩
        [⟨("Senior Backend Engineer").data, ("u").data, [], [], ("t").data⟩]).db.notifications =
      [⟨0, 0, ("backend").data, false⟩] ∧
    ¬((processJobsLoop 0 (("Acme").data) [("backend").data] (some (("e").data))
        (fun _ => false) ⟨[], [], 0⟩
        [⟨("Senior Backend Engineer").data, ("u").data, [], [], ("t").data⟩]).notifs =
      ((processJobsLoop 0 (("Acme").data) [("backend").data] (some (("e").data))
        (fun _ => false) ⟨[], [], 0⟩
        [⟨("Senior Backend Engineer").data, ("u").data, [], [],
          ("t").data⟩]).db.notifications.filter (fun n => n.email_sent)).length) := by
  refine ⟨by decide, by decide, by decide⟩

/-- C6 amended: a failed send is swallowed and reported as false, the new job
    still yields exactly one recorded notification row with email_sent false,
    the per-job loop continues with the remaining jobs, and the notification
    counter counts the recorded row regardless of the send outcome. -/
theorem send_failure_swallowed (u : Nat) (cn addr : List Char) (kws : List (List Char))
    (ok : Nat → Bool) (db : DB) (job : Job) (rest : List Job) (kw : List Char)
    (hnew : singleRow (matchingRows db u cn job.title) = none)
    (hm : checkKeywordMatch job.title kws = some kw)
    (hfail : ok db.nextId = false) :
    sendNotificationEmail (ok db.nextId) = false ∧
    processJob u cn kws (some addr) ok db job =
      ⟨⟨db.jobs ++ [(db.nextId, ⟨u, cn, job.title, ("applied").data⟩)],
        db.notifications ++ [⟨u, db.nextId, kw, false⟩], db.nextId + 1⟩, 1, 1⟩ ∧
    processJobsLoop u cn kws (some addr) ok db (job :: rest) =
      ⟨(processJobsLoop u cn kws (some addr) ok
          ⟨db.jobs ++ [(db.nextId, ⟨u, cn, job.title, ("applied").data⟩)],
           db.notifications ++ [⟨u, db.nextId, kw, false⟩], db.nextId + 1⟩ rest).db,
       1 + (processJobsLoop u cn kws (some addr) ok
          ⟨db.jobs ++ [(db.nextId, ⟨u, cn, job.title, ("applied").data⟩)],
           db.notifications ++ [⟨u, db.nextId, kw, false⟩], db.nextId + 1⟩ rest).newJobs,
       1 + (processJobsLoop u cn kws (some addr) ok
          ⟨db.jobs ++ [(db.nextId, ⟨u, cn, job.title, ("applied").data⟩)],
           db.notifications ++ [⟨u, db.nextId, kw, false⟩], db.nextId + 1⟩ rest).notifs⟩ := by
  have h1 : sendNotificationEmail (ok db.nextId) = false := by
    rw [hfail]
    rfl
  have h2 : processJob u cn kws (some addr) ok db job =
      ⟨⟨db.jobs ++ [(db.nextId, ⟨u, cn, job.title, ("applied").data⟩)],
        db.notifications ++ [⟨u, db.nextId, kw, false⟩], db.nextId + 1⟩, 1, 1⟩ := by
    rw [processJob_notif_match hnew hm, h1]
  refine ⟨h1, h2, ?_⟩
  rw [processJobsLoop_cons, h2]

/-- Witness for C6: a concrete new matching job whose send fails. -/
theorem send_failure_swallowed_witness :
    sendNotificationEmail ((fun _ => false : Nat → Bool) (⟨[], [], 0⟩ : DB).nextId) = false ∧
    processJob 0 (("Acme").data) [("backend").data] (some (("e").data)) (fun _ => false)
      ⟨[], [], 0⟩ ⟨("Senior Backend Engineer").data, ("u").data, [], [], ("t").data⟩ =
      ⟨⟨[(0, ⟨0, ("Acme").data, ("Senior Backend Engineer").data, ("applied").data⟩)],
        [⟨0, 0, ("backend").data, false⟩], 1⟩, 1, 1⟩ ∧
    processJobsLoop 0 (("Acme").data) [("backend").data] (some (("e").data))
      (fun _ => false) ⟨[], [], 0⟩
      [⟨("Senior Backend Engineer").data, ("u").data, [], [], ("t").data⟩] =
      ⟨(processJobsLoop 0 (("Acme").data) [("backend").data] (some (("e").data))
          (fun _ => false)
          ⟨[(0, ⟨0, ("Acme").data, ("Senior Backend Engineer").data, ("applied").data⟩)],
           [⟨0, 0, ("backend").data, false⟩], 1⟩ []).db,
       1 + (processJobsLoop 0 (("Acme").data) [("backend").data] (some (("e").data))
          (fun _ => false)
          ⟨[(0, ⟨0, ("Acme").data, ("Senior Backend Engineer").data, ("applied").data⟩)],
           [⟨0, 0, ("backend").data, false⟩], 1⟩ []).newJobs,
       1 + (processJobsLoop 0 (("Acme").data) [("backend").data] (some (("e").data))
          (fun _ => false)
          ⟨[(0, ⟨0, ("Acme").data, ("Senior Backend Engineer").data, ("applied").data⟩)],
           [⟨0, 0, ("backend").data, false⟩], 1⟩ []).notifs⟩ := by
  have h := send_failure_swallowed 0 (("Acme").data) (("e").data) [("backend").data]
    (fun _ => false) ⟨[], [], 0⟩
    ⟨("Senior Backend Engineer").data, ("u").data, [], [], ("t").data⟩ [] (("backend").data)
    (by decide) (by decide) (by decide)
  exact ⟨h.1, by
    have h2 := h.2.1
    simpa using h2, by
    have h3 := h.2.2
    simpa using h3⟩

/-- C7: a company whose owner's keyword set is empty is skipped entirely: the
    state is untouched, nothing is counted, no error or detail entry is
    recorded, the result never depends on the fetch, and the company loop
    over a list starting with such a company equals the loop over the
    remaining companies, so only companies with keywords are scraped. -/
theorem empty_keywords_skip :
    (∀ (now : List Char) (ok : Nat → Bool) (db : DB) (c : Company)
      (f : Except (List Char) (List RawMatch)),
      processCompany now ok db ⟨c, .ok [], f⟩ = ⟨db, 0, 0, none⟩) ∧
    (∀ (now : List Char) (ok : Nat → Bool) (db : DB) (c : Company)
      (f1 f2 : Except (List Char) (List RawMatch)),
      processCompany now ok db ⟨c, .ok [], f1⟩ = processCompany now ok db ⟨c, .ok [], f2⟩) ∧
    (∀ (now : List Char) (ok : Nat → Bool) (db : DB) (c : Company)
      (f : Except (List Char) (List RawMatch)) (rest : List CompanyInput),
      runLoop now ok db (⟨c, .ok [], f⟩ :: rest) = runLoop now ok db rest) := by
  refine ⟨fun now ok db c f => rfl, fun now ok db c f1 f2 => rfl,
    fun now ok db c f rest => ?_⟩
  rw [runLoop_cons, processCompany_empty_kws]
  simp

/-- Counterexample to C8 as stated: a newly persisted job with a keyword
    match but no profile email on file produces zero notifications, not
    exactly one. -/
theorem notification_missing_email_counterexample :
    checkKeywordMatch (("Senior Backend Engineer").data) [("backend").data] =
      some (("backend").data) ∧
    (processJob 0 (("Acme").data) [("backend").data] none (fun _ => true) ⟨[], [], 0⟩
        ⟨("Senior Backend Engineer").data, ("u").data, [], [], ("t").data⟩).newJobs = 1 ∧
    (processJob 0 (("Acme").data) [("backend").data] none (fun _ => true) ⟨[], [], 0⟩
        ⟨("Senior Backend Engineer").data, ("u").data, [], [], ("t").data⟩).db.notifications =
      [] ∧
    ¬((processJob 0 (("Acme").data) [("backend").data] none (fun _ => true) ⟨[], [], 0⟩
        ⟨("Senior Backend Engineer").data, ("u").data, [], [],
          ("t").data⟩).db.notifications.length = 1) := by
  refine ⟨by decide, by decide, by decide, by decide⟩

/-- C8 amended: a newly persisted job whose title matches a keyword yields
    exactly one appended notification row referencing the new job id and the
    matched keyword when the owner's email is on file, and none when it is
    not; notification rows are only ever appended, never updated or
    deleted. -/
theorem notification_created_once (u : Nat) (cn addr : List Char) (kws : List (List Char))
    (ok : Nat → Bool) (db : DB) (job : Job) (kw : List Char)
    (hnew : singleRow (matchingRows db u cn job.title) = none) :
    (checkKeywordMatch job.title kws = some kw →
      (processJob u cn kws (some addr) ok db job).db.notifications =
        db.notifications ++ [⟨u, db.nextId, kw, sendNotificationEmail (ok db.nextId)⟩]) ∧
    (checkKeywordMatch job.title kws = none →
      (processJob u cn kws (some addr) ok db job).db.notifications = db.notifications) ∧
    (processJob u cn kws none ok db job).db.notifications = db.notifications ∧
    (∀ (em : Option (List Char)) (jobs : List Job) (db0 : DB),
      ∃ tail, (processJobsLoop u cn kws em ok db0 jobs).db.notifications =
        db0.notifications ++ tail) := by
  refine ⟨fun hm => ?_, fun hm => ?_, ?_, ?_⟩
  · rw [processJob_notif_match hnew hm]
  · rw [processJob_no_match_shape hnew hm]
  · rcases hm : checkKeywordMatch job.title kws with _ | kw2
    · rw [processJob_no_match_shape hnew hm]
    · rw [processJob_no_email_shape hnew hm]
  · intro em jobs db0
    exact processJobsLoop_notifications_append u cn kws em ok jobs db0

/-- Witness for C8: a concrete new matching job with an email on file. -/
theorem notification_created_once_witness :
    (processJob 0 (("Acme").data) [("backend").data] (some (("e").data)) (fun _ => true)
        ⟨[], [], 0⟩
        ⟨("Senior Backend Engineer").data, ("u").data, [], [],
          ("t").data⟩).db.notifications =
      ([] : List NotifRow) ++
        [⟨0, (⟨[], [], 0⟩ : DB).nextId, ("backend").data,
          sendNotificationEmail ((fun _ => true : Nat → Bool) (⟨[], [], 0⟩ : DB).nextId)⟩] :=
  (notification_created_once 0 (("Acme").data) (("e").data) [("backend").data]
      (fun _ => true) ⟨[], [], 0⟩
      ⟨("Senior Backend Engineer").data, ("u").data, [], [], ("t").data⟩
      (("backend").data) (by decide)).1 (by decide)

/-- C9: OPTIONS receives a bodiless response; any other request receives 200
    with the success body over the full run whenever the companies query
    succeeded, even when individual companies failed, and 500 with the error
    body exactly when the companies query itself failed. -/
theorem http_response_shape (method now e : List Char) (ok : Nat → Bool) (db : DB)
    (companies : List CompanyInput) (cr : Except (List Char) (List CompanyInput))
    (hme : method ≠ ("OPTIONS").data) :
    handler (("OPTIONS").data) now ok db cr = ⟨200, none⟩ ∧
    handler method now ok db (.ok companies) =
      ⟨200, some (.ok true (("Scraping completed successfully").data)
        ⟨companies.length, (runLoop now ok db companies).newJobs,
         (runLoop now ok db companies).notifs⟩
        (runLoop now ok db companies).details)⟩ ∧
    handler method now ok db (.error e) =
      ⟨500, some (.err false e (("Scraping process failed").data))⟩ := by
  refine ⟨rfl, ?_, ?_⟩
  · unfold handler
    rw [if_neg (fun hb => hme (by simpa using hb))]
  · unfold handler
    rw [if_neg (fun hb => hme (by simpa using hb))]

/-- Witness for C9: a concrete POST with an empty company list. -/
theorem http_response_shape_witness :
    handler (("POST").data) (("t").data) (fun _ => true) ⟨[], [], 0⟩ (.ok []) =
      ⟨200, some (.ok true (("Scraping completed successfully").data)
        ⟨(([] : List CompanyInput)).length,
         (runLoop (("t").data) (fun _ => true) ⟨[], [], 0⟩ []).newJobs,
         (runLoop (("t").data) (fun _ => true) ⟨[], [], 0⟩ []).notifs⟩
        (runLoop (("t").data) (fun _ => true) ⟨[], [], 0⟩ []).details)⟩ :=
  (http_response_shape (("POST").data) (("t").data) (("boom").data) (fun _ => true)
    ⟨[], [], 0⟩ [] (.ok []) (by decide)).2.1

/-- C10: every jobs row present after the per-job loop either was already
    stored or is exactly the four-field record of user id, company name,
    candidate title and status applied; the candidate's url, description,
    location and posted date are never persisted. -/
theorem persisted_job_shape (u : Nat) (cn : List Char) (kws : List (List Char))
    (em : Option (List Char)) (ok : Nat → Bool) :
    ∀ (jobs : List Job) (db : DB) (p : Nat × JobRow),
      p ∈ (processJobsLoop u cn kws em ok db jobs).db.jobs →
      p ∈ db.jobs ∨ ∃ job ∈ jobs, p.2 = ⟨u, cn, job.title, ("applied").data⟩ := by
  intro jobs
  induction jobs with
  | nil => intro db p hp; exact Or.inl hp
  | cons j rest ih =>
    intro db p hp
    rw [processJobsLoop_cons_db] at hp
    rcases ih _ p hp with h | ⟨job, hj, he⟩
    · rcases hs : singleRow (matchingRows db u cn j.title) with _ | r
      · rw [(processJob_insert_shape hs).1] at h
        rcases List.mem_append.mp h with h | h
        · exact Or.inl h
        · have he := List.mem_singleton.mp h
          refine Or.inr ⟨j, List.mem_cons_self _ _, ?_⟩
          rw [he]
      · rw [processJob_skip hs] at h
        exact Or.inl h
    · exact Or.inr ⟨job, List.mem_cons_of_mem _ hj, he⟩

/-- Witness for C10: the single row inserted by a concrete run is the
    four-field applied record. -/
theorem persisted_job_shape_witness :
    ((0, (⟨0, ("Acme").data, ("Senior Backend Engineer").data, ("applied").data⟩ : JobRow)) ∈
      (⟨[], [], 0⟩ : DB).jobs) ∨
    ∃ job ∈ [(⟨("Senior Backend Engineer").data, ("u").data, [], [], ("t").data⟩ : Job)],
      (⟨0, ("Acme").data, ("Senior Backend Engineer").data, ("applied").data⟩ : JobRow) =
        ⟨0, ("Acme").data, job.title, ("applied").data⟩ :=
  persisted_job_shape 0 (("Acme").data) [("backend").data] none (fun _ => true)
    [⟨("Senior Backend Engineer").data, ("u").data, [], [], ("t").data⟩] ⟨[], [], 0⟩
    (0, ⟨0, ("Acme").data, ("Senior Backend Engineer").data, ("applied").data⟩)
    (by decide)

end JobHunter
